import Mathlib

/-!
# Verification of the sinesp-api plate-search module

Shallow embedding in Lean 4 of `src/index.js` of the `sinesp-api` package:
plate validation, module configuration, the retry loop, token generation
(HMAC-SHA1), response normalization, request-envelope construction, random
IP-octet generation, and the `search` pipeline.

JavaScript regular expressions, `parseInt`, `crypto.createHmac` and the
`||` default operator are modelled faithfully to their ECMAScript semantics
on the inputs the module feeds them.  Randomness (`Math.random`), the clock
and the network transport are explicit parameters.
-/

namespace Sinesp

/-! ## Character classes and plate validation (src/index.js lines 27-60)

`SPECIAL = /[^a-zA-Z0-9]/i` carries no `g` flag, so
`plate.replace(SPECIAL, '')` removes only the FIRST non-alphanumeric
character.  `PLATE_FORMAT = /^[a-zA-Z]{3}[0-9]{4}$/im` carries the `m`
flag, so `^`/`$` anchor at line boundaries: `test` succeeds when SOME
newline-delimited line of the string matches the seven-character pattern. -/

def isAsciiLetter (c : Char) : Bool :=
  ('a' ≤ c && c ≤ 'z') || ('A' ≤ c && c ≤ 'Z')

def isAsciiDigit (c : Char) : Bool :=
  '0' ≤ c && c ≤ '9'

/-- The character class `[a-zA-Z0-9]`, the complement of `SPECIAL`. -/
def isAlnum (c : Char) : Bool :=
  isAsciiLetter c || isAsciiDigit c

/-- `s.replace(SPECIAL, '')` with `SPECIAL = /[^a-zA-Z0-9]/i` (no `g` flag):
removes only the first non-alphanumeric character of the string. -/
def removeFirstSpecial : List Char → List Char
  | [] => []
  | c :: cs => if isAlnum c then c :: removeFirstSpecial cs else cs

/-- One line fully matches `[a-zA-Z]{3}[0-9]{4}`. -/
def isPlateCore (l : List Char) : Bool :=
  l.length == 7 && (l.take 3).all isAsciiLetter && (l.drop 3).all isAsciiDigit

/-- ECMAScript LineTerminator: LF, CR, LS, PS — the positions where the
`m` flag lets `^`/`$` match. -/
def isLineTerminator (c : Char) : Bool :=
  c = '\n' || c = '\r' || c.toNat = 8232 || c.toNat = 8233

/-- Split at LineTerminators, the line structure used by the `m` flag of
`PLATE_FORMAT`. -/
def splitLines : List Char → List (List Char)
  | [] => [[]]
  | c :: cs =>
    if isLineTerminator c then [] :: splitLines cs
    else
      match splitLines cs with
      | [] => [[c]]
      | l :: ls => (c :: l) :: ls

/-- `PLATE_FORMAT.test`: with the `m` flag, some line matches the pattern. -/
def testPlateFormat (l : List Char) : Bool :=
  (splitLines l).any isPlateCore

/-- The message of the `Error` thrown by `validate`. -/
def validationMessage : String :=
  "Formato de placa inválido! Utilize o formato \"AAA9999\" ou \"AAA-9999\"."

/-- `validate` (src/index.js lines 52-60): strip via `SPECIAL`, test via
`PLATE_FORMAT`, throw on failure. -/
def validate (plate : String) : Except String String :=
  let plateToUse := removeFirstSpecial plate.data
  if testPlateFormat plateToUse then Except.ok (String.mk plateToUse)
  else Except.error validationMessage

/-- Spec-side reading of the stripping step, following the spec words
"strips every character that is not a letter or digit": removes ALL
non-alphanumeric characters.  Kept separate from `removeFirstSpecial`
(the code's behaviour) for comparison. -/
def specStripAll (l : List Char) : List Char :=
  l.filter isAlnum

/-- Number of non-alphanumeric characters of the string. -/
def countSpecial (l : List Char) : Nat :=
  (l.filter (fun c => !isAlnum c)).length

/-! ## Configuration (src/index.js lines 30-39 and 325-355) -/

/-- The `proxy` sub-object; absent JS fields are `none`. -/
structure ProxyConfig where
  host : Option String
  port : Option Nat
deriving Repr, DecidableEq

/-- The module options object `opts`. -/
structure Options where
  host : String
  endpoint : String
  serviceVersion : String
  androidVersion : String
  secret : String
  timeout : Nat
  maximumRetry : Nat
  proxy : ProxyConfig
deriving Repr, DecidableEq

/-- The `DEFAULT` constant (src/index.js lines 30-39); its `proxy` is the
empty object, whose `host`/`port` reads give `undefined`. -/
def DEFAULT : Options :=
  { host := "cidadao.sinesp.gov.br"
    endpoint := "/sinesp-cidadao/mobile/consultar-placa/"
    serviceVersion := "v4"
    androidVersion := "8.1.0"
    secret := "g8LzUadkEHs7mbRqbX5l"
    timeout := 0
    maximumRetry := 0
    proxy := ⟨none, none⟩ }

/-- The destructured argument of `configure`; every field is optional and
defaults to `undefined` (`none`), `proxy` to `{}`. -/
structure ConfigureArgs where
  host : Option String := none
  serviceVersion : Option String := none
  androidVersion : Option String := none
  endpoint : Option String := none
  secret : Option String := none
  timeout : Option Nat := none
  maximumRetry : Option Nat := none
  proxy : ProxyConfig := ⟨none, none⟩

/-- JS `x || d` for a possibly-undefined string `x`: `undefined` and the
empty string are falsy. -/
def jsOrStr : Option String → String → String
  | none, d => d
  | some s, d => if s = "" then d else s

/-- JS `x || d` for a possibly-undefined number `x` (modelled on `Nat`):
`undefined` and `0` are falsy. -/
def jsOrNat : Option Nat → Nat → Nat
  | none, d => d
  | some n, d => if n = 0 then d else n

/-- JS `x || d` where the default `d` itself may be `undefined` (string). -/
def jsOrOptStr : Option String → Option String → Option String
  | none, d => d
  | some s, d => if s = "" then d else some s

/-- JS `x || d` where the default `d` itself may be `undefined` (number). -/
def jsOrOptNat : Option Nat → Option Nat → Option Nat
  | none, d => d
  | some n, d => if n = 0 then d else some n

/-- `configure` (src/index.js lines 325-347).  NOTE: the source really
reads `androidVersion: androidVersion || DEFAULT.serviceVersion` on
line 339 — the embedding reproduces that line as written. -/
def configure (a : ConfigureArgs) : Options :=
  { host := jsOrStr a.host DEFAULT.host
    endpoint := jsOrStr a.endpoint DEFAULT.endpoint
    serviceVersion := jsOrStr a.serviceVersion DEFAULT.serviceVersion
    androidVersion := jsOrStr a.androidVersion DEFAULT.serviceVersion
    secret := jsOrStr a.secret DEFAULT.secret
    timeout := jsOrNat a.timeout DEFAULT.timeout
    maximumRetry := jsOrNat a.maximumRetry DEFAULT.maximumRetry
    proxy := ⟨jsOrOptStr a.proxy.host DEFAULT.proxy.host,
              jsOrOptNat a.proxy.port DEFAULT.proxy.port⟩ }

/-! ## Retry loop (src/index.js lines 183-208)

`retry(url, options, attempt = 0, delay = 0)` sleeps `delay` ms, invokes
the transport once, and on failure either rethrows (when
`attempt >= opts.maximumRetry`) or recurs with `attempt + 1` and
`(delay || 1000) * 2`.  The embedding makes the transport an explicit
function of the attempt index and returns, next to the result, the list
of sleep delays — one entry per transport invocation, in order. -/

/-- The delay update `(delay || 1000) * 2`: JS `0` is falsy. -/
def retryStep (delay : Nat) : Nat :=
  (if delay = 0 then 1000 else delay) * 2

def retry {E A : Type} (transport : Nat → Except E A) (maximumRetry attempt delay : Nat) :
    Except E A × List Nat :=
  match transport attempt with
  | Except.ok a => (Except.ok a, [delay])
  | Except.error e =>
    if h : maximumRetry ≤ attempt then (Except.error e, [delay])
    else
      let r := retry transport maximumRetry (attempt + 1) (retryStep delay)
      (r.1, delay :: r.2)
termination_by maximumRetry - attempt
decreasing_by omega

/-- The delay slept before the 1-based attempt `i + 1`: `0` before the
first attempt, then `2000, 4000, 8000, ...`. -/
def delaySeq : Nat → Nat
  | 0 => 0
  | n + 1 => 2000 * 2 ^ n

/-! ## Token generation (src/index.js lines 148-154)

`createHmac('sha1', key).update(msg).digest('hex')` is modelled by a
pure FIPS 180-1 / FIPS 198-1 implementation of SHA-1 and HMAC over byte
lists (`Nat` values below 256), with strings converted to UTF-8 bytes. -/

def M32 : Nat := 4294967296

/-- Left rotation of a 32-bit word. -/
def rotl32 (n x : Nat) : Nat :=
  ((x <<< n) ||| (x >>> (32 - n))) % M32

/-- Bitwise complement of a 32-bit word. -/
def not32 (x : Nat) : Nat :=
  x ^^^ (M32 - 1)

/-- Big-endian 32-bit words from bytes (length a multiple of 4). -/
def bytesToWords : List Nat → List Nat
  | b0 :: b1 :: b2 :: b3 :: rest =>
    (((b0 * 256 + b1) * 256 + b2) * 256 + b3) :: bytesToWords rest
  | _ => []

/-- Big-endian 8-byte encoding of a 64-bit length field. -/
def beBytes8 (n : Nat) : List Nat :=
  [n / 2 ^ 56 % 256, n / 2 ^ 48 % 256, n / 2 ^ 40 % 256, n / 2 ^ 32 % 256,
   n / 2 ^ 24 % 256, n / 2 ^ 16 % 256, n / 2 ^ 8 % 256, n % 256]

/-- Big-endian 4-byte encoding of a 32-bit word. -/
def wordBytes (w : Nat) : List Nat :=
  [w / 2 ^ 24 % 256, w / 2 ^ 16 % 256, w / 2 ^ 8 % 256, w % 256]

/-- SHA-1 padding: `0x80`, zeros, then the 64-bit bit length, to a
multiple of 64 bytes. -/
def sha1Pad (msg : List Nat) : List Nat :=
  msg ++ [128] ++ List.replicate ((64 - (msg.length + 9) % 64) % 64) 0
      ++ beBytes8 (msg.length * 8)

/-- Message-schedule extension: append `n` more words, each the 1-bit
left rotation of the XOR of the words 3, 8, 14 and 16 places back. -/
def sha1Extend (ws : List Nat) : Nat → List Nat
  | 0 => ws
  | n + 1 =>
    sha1Extend (ws ++ [rotl32 1 ((ws.getD (ws.length - 3) 0 ^^^ ws.getD (ws.length - 8) 0)
      ^^^ (ws.getD (ws.length - 14) 0 ^^^ ws.getD (ws.length - 16) 0))]) n

/-- The SHA-1 round function `f_t`. -/
def sha1F (t b c d : Nat) : Nat :=
  if t < 20 then (b &&& c) ||| (not32 b &&& d)
  else if t < 40 then (b ^^^ c) ^^^ d
  else if t < 60 then ((b &&& c) ||| (b &&& d)) ||| (c &&& d)
  else (b ^^^ c) ^^^ d

/-- The SHA-1 round constant `K_t`. -/
def sha1K (t : Nat) : Nat :=
  if t < 20 then 0x5A827999
  else if t < 40 then 0x6ED9EBA1
  else if t < 60 then 0x8F1BBCDC
  else 0xCA62C1D6

/-- One SHA-1 round on the state `(a, b, c, d, e)`. -/
def sha1Round (w : List Nat) (st : Nat × Nat × Nat × Nat × Nat) (t : Nat) :
    Nat × Nat × Nat × Nat × Nat :=
  match st with
  | (a, b, c, d, e) =>
    ((rotl32 5 a + sha1F t b c d + e + sha1K t + w.getD t 0) % M32,
     a, rotl32 30 b, c, d)

/-- Process one 64-byte chunk. -/
def sha1Chunk (h : Nat × Nat × Nat × Nat × Nat) (chunk : List Nat) :
    Nat × Nat × Nat × Nat × Nat :=
  match h, (List.range 80).foldl (sha1Round (sha1Extend (bytesToWords chunk) 64)) h with
  | (h0, h1, h2, h3, h4), (a, b, c, d, e) =>
    ((h0 + a) % M32, (h1 + b) % M32, (h2 + c) % M32, (h3 + d) % M32, (h4 + e) % M32)

/-- Split a byte list into 64-byte chunks; the structural fuel (an upper
bound on the number of chunks) keeps the recursion kernel-reducible. -/
def chunks64Fuel : Nat → List Nat → List (List Nat)
  | 0, _ => []
  | _ + 1, [] => []
  | fuel + 1, c :: rest => (c :: rest).take 64 :: chunks64Fuel fuel ((c :: rest).drop 64)

/-- Split a byte list into 64-byte chunks. -/
def chunks64 (l : List Nat) : List (List Nat) :=
  chunks64Fuel l.length l

def sha1Init : Nat × Nat × Nat × Nat × Nat :=
  (0x67452301, 0xEFCDAB89, 0x98BADCFE, 0x10325476, 0xC3D2E1F0)

/-- SHA-1 of a byte list, as 20 bytes. -/
def sha1 (msg : List Nat) : List Nat :=
  match (chunks64 (sha1Pad msg)).foldl sha1Chunk sha1Init with
  | (h0, h1, h2, h3, h4) =>
    wordBytes h0 ++ wordBytes h1 ++ wordBytes h2 ++ wordBytes h3 ++ wordBytes h4

/-- HMAC-SHA1 (FIPS 198-1, block size 64): long keys are hashed, the key
is zero-padded to the block size, and the digest is
`H((K ⊕ opad) ‖ H((K ⊕ ipad) ‖ msg))`. -/
def hmacSha1 (key msg : List Nat) : List Nat :=
  let k0 := if 64 < key.length then sha1 key else key
  let kpad := k0 ++ List.replicate (64 - k0.length) 0
  sha1 ((kpad.map (fun b => b ^^^ 0x5C)) ++ sha1 ((kpad.map (fun b => b ^^^ 0x36)) ++ msg))

/-- The lowercase hex digit of a value below 16: `0`-`9` then `a`-`f`. -/
def hexDigitChar (n : Nat) : Char :=
  if n < 10 then Char.ofNat (48 + n) else Char.ofNat (87 + n)

/-- Two lowercase hex digits of a byte. -/
def byteHex (b : Nat) : List Char :=
  [hexDigitChar (b / 16 % 16), hexDigitChar (b % 16)]

/-- Lowercase hexadecimal rendering of a byte list (`.digest('hex')`). -/
def hexDigest (bytes : List Nat) : String :=
  String.mk (bytes.map byteHex).flatten

/-- `createHmac('sha1', key).update(msg).digest('hex')` on strings. -/
def hmacSha1Hex (key msg : List Nat) : String :=
  hexDigest (hmacSha1 key msg)

/-- UTF-8 encoding of a code point. -/
def utf8Encode (n : Nat) : List Nat :=
  if n < 128 then [n]
  else if n < 2048 then [192 + n / 64, 128 + n % 64]
  else if n < 65536 then [224 + n / 4096, 128 + n / 64 % 64, 128 + n % 64]
  else [240 + n / 262144, 128 + n / 4096 % 64, 128 + n / 64 % 64, 128 + n % 64]

/-- The UTF-8 bytes of a string (Node's default string-to-`Buffer`). -/
def strBytes (s : String) : List Nat :=
  (s.data.map (fun c => utf8Encode c.toNat)).flatten

/-- `generateToken` (src/index.js lines 148-154): HMAC-SHA1 with key
`plate + '#' + opts.androidVersion + '#' + opts.secret` and message
`plate`, rendered as lowercase hex. -/
def generateToken (o : Options) (plate : String) : String :=
  let secret := "#" ++ o.androidVersion ++ "#" ++ o.secret
  hmacSha1Hex (strBytes (plate ++ secret)) (strBytes plate)

/-! ## Response normalization (src/index.js lines 71-79)

`normalize` destructures the parsed SOAP document down to the `return`
envelope, throws `Error(envelope.mensagemRetorno)` when
`parseInt(envelope.codigoRetorno, 10) !== 0`, and otherwise returns the
envelope.  The embedding starts from the already-destructured envelope:
the claim quantifies over documents that parse to the expected shape. -/

/-- The `return` envelope of the parsed SOAP response: the status code
and message fields read by `normalize`, plus the remaining key/value
fields, which `normalize` passes through untouched. -/
structure ReturnEnvelope where
  codigoRetorno : String
  mensagemRetorno : String
  camposRestantes : List (String × String)
deriving Repr, DecidableEq

/-- Base-10 value of a digit list (most significant first). -/
def digitsToNat : List Char → Nat → Nat
  | [], acc => acc
  | c :: cs, acc => digitsToNat cs (acc * 10 + (c.toNat - 48))

/-- JS `parseInt(s, 10)`: skip whitespace, optional sign, longest digit
run; `none` is `NaN`. -/
def parseIntBase10 (s : String) : Option Int :=
  let l := s.data.dropWhile (fun c => c = ' ' || c = '\t' || c = '\n' || c = '\r')
  let signed : Int × List Char :=
    match l with
    | '-' :: cs => (-1, cs)
    | '+' :: cs => (1, cs)
    | cs => (1, cs)
  let ds := signed.2.takeWhile isAsciiDigit
  if ds = [] then none else some (signed.1 * (digitsToNat ds 0 : Int))

/-- `normalize`: throw the status message when the parsed status code is
not `0` (also when it is `NaN`), else return the envelope. -/
def normalize (env : ReturnEnvelope) : Except String ReturnEnvelope :=
  if parseIntBase10 env.codigoRetorno = some 0 then Except.ok env
  else Except.error env.mensagemRetorno

/-! ## Request envelope (src/index.js lines 250-291)

`generateBody` validates the plate, draws the IP address, coordinates and
date, computes the token, and fills the `v:Envelope` object handed to the
xml2js `Builder`.  The random/clock-derived strings are parameters. -/

/-- The `v:Header` object literal (lines 266-279). -/
structure VHeader where
  b : String
  c : String
  d : String
  e : String
  f : String
  g : String
  h : String
  i : String
  j : String
  k : String
  l : String
  m : String
deriving Repr, DecidableEq

/-- The `n0:getStatus` object of the body: field `a` holds the plate. -/
structure GetStatus where
  a : String
deriving Repr, DecidableEq

/-- The `v:Body` object literal (lines 280-287). -/
structure VBody where
  getStatus : GetStatus
deriving Repr, DecidableEq

/-- The `v:Envelope` object handed to the xml2js `Builder`. -/
structure VEnvelope where
  header : VHeader
  body : VBody
deriving Repr, DecidableEq

/-- The envelope built at lines 262-288, for a validated plate and given
client identity (`ip`), `token`, coordinates and `date`. -/
def mkRequestEnvelope (o : Options) (plateToUse ip token lon lat date : String) :
    VEnvelope :=
  { header :=
      { b := "LGE Nexus 5"
        c := "ANDROID"
        d := o.androidVersion
        e := "4.3.2"
        f := ip
        g := token
        h := lon
        i := lat
        j := ""
        k := ""
        l := date
        m := "8797e74f0d6eb7b1ff3dc114d4aa12d3" }
    body := { getStatus := { a := plateToUse } } }

/-- `generateBody` (lines 250-291): validate, then fill the envelope with
the token of the validated plate. -/
def generateBody (o : Options) (plate ip lon lat date : String) :
    Except String VEnvelope :=
  (validate plate).map fun plateToUse =>
    mkRequestEnvelope o plateToUse ip (generateToken o plateToUse) lon lat date

/-! ## Random IP generation (src/index.js lines 88-106)

`Math.random()` values are explicit rational parameters in `[0, 1)`. -/

/-- `generateRandomOctet`: `Math.floor(Math.random() * 255) + 1`. -/
def generateRandomOctet (r : ℚ) : ℤ :=
  Int.floor (r * 255) + 1

/-- `generateIPAddress` draws four octets, one per randomness value. -/
def generateIPAddress (r1 r2 r3 r4 : ℚ) : ℤ × ℤ × ℤ × ℤ :=
  (generateRandomOctet r1, generateRandomOctet r2,
   generateRandomOctet r3, generateRandomOctet r4)

/-! ## Search pipeline (src/index.js lines 219-239 and 304-308)

`search(plate = '')` builds the body (which validates the plate first)
and only then issues the request, which runs the retry loop and
normalizes the response.  The result is paired with the number of
transport invocations (the length of the retry delay trace). -/

def search (o : Options) (transport : Nat → Except String ReturnEnvelope)
    (ip lon lat date : String) (plate : String := "") :
    Except String ReturnEnvelope × Nat :=
  match generateBody o plate ip lon lat date with
  | Except.error e => (Except.error e, 0)
  | Except.ok _body =>
    let r := retry transport o.maximumRetry 0 0
    (match r.1 with
     | Except.ok resp => normalize resp
     | Except.error e => Except.error e,
     r.2.length)

/-! ## Lemmas about validation -/

theorem mem_removeFirstSpecial {c : Char} :
    ∀ {l : List Char}, c ∈ removeFirstSpecial l → c ∈ l := by
  intro l h
  induction l with
  | nil => simpa [removeFirstSpecial] using h
  | cons a as ih =>
    by_cases ha : isAlnum a
    · simp only [removeFirstSpecial, ha, if_pos] at h
      rcases List.mem_cons.mp h with h | h
      · exact h ▸ List.mem_cons_self a as
      · exact List.mem_cons_of_mem a (ih h)
    · simp only [removeFirstSpecial, ha, if_neg, Bool.false_eq_true] at h
      exact List.mem_cons_of_mem a h

theorem specStripAll_of_countSpecial_zero {l : List Char}
    (h : countSpecial l = 0) : specStripAll l = l := by
  have hall : ∀ c ∈ l, isAlnum c = true := by
    intro c hc
    have := List.filter_eq_nil_iff.mp (List.eq_nil_of_length_eq_zero h) c hc
    simpa using this
  exact List.filter_eq_self.mpr hall

theorem removeFirstSpecial_of_countSpecial_le_one {l : List Char}
    (h : countSpecial l ≤ 1) : removeFirstSpecial l = specStripAll l := by
  induction l with
  | nil => rfl
  | cons a as ih =>
    by_cases ha : isAlnum a
    · have h' : countSpecial as ≤ 1 := by
        simpa [countSpecial, List.filter_cons, ha] using h
      have hrec := ih h'
      simp only [specStripAll] at hrec
      simp [removeFirstSpecial, specStripAll, List.filter_cons, ha, hrec]
    · have h0 : countSpecial as = 0 := by
        have hc : countSpecial (a :: as) = countSpecial as + 1 := by
          simp [countSpecial, List.filter_cons, ha]
        omega
      have h1 := specStripAll_of_countSpecial_zero h0
      simp only [specStripAll] at h1
      simp [removeFirstSpecial, specStripAll, List.filter_cons, ha, h1]

theorem countSpecial_le_removeFirstSpecial (l : List Char) :
    countSpecial l ≤ countSpecial (removeFirstSpecial l) + 1 := by
  induction l with
  | nil => simp [removeFirstSpecial, countSpecial]
  | cons a as ih =>
    by_cases ha : isAlnum a
    · simpa [removeFirstSpecial, countSpecial, List.filter, ha] using ih
    · simp [removeFirstSpecial, countSpecial, List.filter, ha]

theorem exists_special_of_countSpecial_pos {l : List Char}
    (h : 1 ≤ countSpecial l) : ∃ c ∈ l, isAlnum c = false := by
  have hne : l.filter (fun c => !isAlnum c) ≠ [] := by
    intro hnil
    simp [countSpecial, hnil] at h
  obtain ⟨c, hc⟩ := List.exists_mem_of_ne_nil _ hne
  refine ⟨c, List.mem_of_mem_filter hc, ?_⟩
  have := List.of_mem_filter hc
  simpa using this

theorem isPlateCore_length {l : List Char} (h : isPlateCore l = true) :
    l.length = 7 := by
  simp only [isPlateCore, Bool.and_eq_true, beq_iff_eq] at h
  exact h.1.1

theorem isPlateCore_all_alnum {l : List Char} (h : isPlateCore l = true) :
    ∀ c ∈ l, isAlnum c = true := by
  simp only [isPlateCore, Bool.and_eq_true, beq_iff_eq, List.all_eq_true] at h
  intro c hc
  rcases List.mem_append.mp ((List.take_append_drop 3 l) ▸ hc) with h3 | h4
  · simp [isAlnum, h.1.2 c h3]
  · simp [isAlnum, h.2 c h4]

theorem isPlateCore_eq_false_of_special {l : List Char} {c : Char}
    (hc : c ∈ l) (ha : isAlnum c = false) : isPlateCore l = false := by
  by_contra h
  have := isPlateCore_all_alnum (by simpa using h) c hc
  simp [this] at ha

theorem splitLines_ne_nil (l : List Char) : splitLines l ≠ [] := by
  cases l with
  | nil => simp [splitLines]
  | cons a as =>
    by_cases ha : isLineTerminator a
    · simp [splitLines, ha]
    · simp only [splitLines, ha, Bool.false_eq_true, if_false]
      cases splitLines as <;> simp

theorem splitLines_of_no_terminator {l : List Char}
    (h : ∀ c ∈ l, isLineTerminator c = false) : splitLines l = [l] := by
  induction l with
  | nil => rfl
  | cons a as ih =>
    have ha : isLineTerminator a = false := h a (List.mem_cons_self a as)
    have ih' := ih (fun c hc => h c (List.mem_cons_of_mem a hc))
    simp [splitLines, ha, ih']

theorem length_mem_splitLines :
    ∀ {l : List Char}, ∀ x ∈ splitLines l,
      x.length + (l.filter isLineTerminator).length ≤ l.length := by
  intro l
  induction l with
  | nil =>
    intro x hx
    simp only [splitLines, List.mem_singleton] at hx
    simp [hx]
  | cons a as ih =>
    intro x hx
    by_cases ha : isLineTerminator a
    · simp only [splitLines, ha, if_pos] at hx
      rcases List.mem_cons.mp hx with h | h
      · have : (as.filter isLineTerminator).length ≤ as.length :=
          List.length_filter_le _ _
        simp [h, List.filter, ha]
        omega
      · have := ih x h
        simp [List.filter, ha]
        omega
    · simp only [splitLines, ha, Bool.false_eq_true, if_false] at hx
      rcases hsp : splitLines as with _ | ⟨hd, tl⟩
      · exact absurd hsp (splitLines_ne_nil as)
      · rw [hsp] at hx
        rcases List.mem_cons.mp hx with h | h
        · have := ih hd (hsp ▸ List.mem_cons_self hd tl)
          simp [h, List.filter, ha]
          omega
        · have := ih x (hsp ▸ List.mem_cons_of_mem hd h)
          simp [List.filter, ha]
          omega

theorem testPlateFormat_of_no_terminator {l : List Char}
    (h : ∀ c ∈ l, isLineTerminator c = false) :
    testPlateFormat l = isPlateCore l := by
  simp [testPlateFormat, splitLines_of_no_terminator h]

theorem lineTerminator_not_alnum {c : Char}
    (h : isLineTerminator c = true) : isAlnum c = false := by
  simp only [isLineTerminator, Bool.or_eq_true, decide_eq_true_eq] at h
  rcases h with ((h | h) | h) | h
  · subst h; rfl
  · subst h; rfl
  · have hc : c = Char.ofNat 8232 := by rw [← h, Char.ofNat_toNat]
    subst hc; rfl
  · have hc : c = Char.ofNat 8233 := by rw [← h, Char.ofNat_toNat]
    subst hc; rfl

/-! ## Claim C1 -/

/-- C1, counterexample: the input `"ABC-12-34"` matches
`^[A-Za-z]{3}[0-9]{4}$` after removing every non-alphanumeric character
(it is `"ABC1234"`, a plate-format match), yet `validate` rejects it,
because `SPECIAL` has no `g` flag and only the first `'-'` is removed. -/
theorem validate_removes_only_first_special :
    specStripAll ("ABC-12-34").data = ("ABC1234").data ∧
    isPlateCore ("ABC1234").data = true ∧
    validate "ABC-12-34" = Except.error validationMessage :=
  ⟨rfl, rfl, rfl⟩

/-- C1 (amended): for every line-terminator-free string, `validate`
removes only the FIRST non-alphanumeric character; it succeeds — with the
fully stripped 7-character plate — exactly when the string contains at
most one non-alphanumeric character and stripping yields a
`^[A-Za-z]{3}[0-9]{4}$` match, and fails with the ValidationError
otherwise (in particular on every string with two or more interspersed
non-alphanumeric characters). -/
theorem validate_characterization_no_terminator (s : String)
    (hnl : ∀ c ∈ s.data, isLineTerminator c = false) :
    validate s =
      if countSpecial s.data ≤ 1 ∧ isPlateCore (specStripAll s.data) = true
      then Except.ok (String.mk (specStripAll s.data))
      else Except.error validationMessage := by
  have hsub : ∀ c ∈ removeFirstSpecial s.data, isLineTerminator c = false :=
    fun c hc => hnl c (mem_removeFirstSpecial hc)
  have htest := testPlateFormat_of_no_terminator hsub
  by_cases hcnt : countSpecial s.data ≤ 1
  · have heq := removeFirstSpecial_of_countSpecial_le_one hcnt
    rw [heq] at htest
    by_cases hcore : isPlateCore (specStripAll s.data) = true
    · simp [validate, heq, htest, hcore, hcnt]
    · simp [validate, heq, htest, hcore, hcnt]
  · have hle := countSpecial_le_removeFirstSpecial s.data
    have hpos : 1 ≤ countSpecial (removeFirstSpecial s.data) := by omega
    obtain ⟨c, hc, hca⟩ := exists_special_of_countSpecial_pos hpos
    have hcore : isPlateCore (removeFirstSpecial s.data) = false :=
      isPlateCore_eq_false_of_special hc hca
    simp [validate, htest, hcore, hcnt]

/-- Witness for the amended C1 at the concrete input `"ABC-1234"`. -/
theorem validate_characterization_no_terminator_witness :
    validate "ABC-1234" =
      if countSpecial ("ABC-1234").data ≤ 1 ∧
          isPlateCore (specStripAll ("ABC-1234").data) = true
      then Except.ok (String.mk (specStripAll ("ABC-1234").data))
      else Except.error validationMessage :=
  validate_characterization_no_terminator "ABC-1234" (by decide)

/-! ## Claim C2 -/

/-- C2 (code bug): `configure` with no arguments sets every documented
default except `androidVersion`: line 339 of src/index.js reads
`androidVersion: androidVersion || DEFAULT.serviceVersion`, so the field
becomes `"v4"` instead of the documented `DEFAULT.androidVersion`
(`"8.1.0"`, also the JSDoc default on line 316). -/
theorem configure_no_args_androidVersion_bug :
    (configure {}).androidVersion = "v4" ∧
    DEFAULT.androidVersion = "8.1.0" ∧
    (configure {}).androidVersion ≠ DEFAULT.androidVersion ∧
    (configure {}).host = "cidadao.sinesp.gov.br" ∧
    (configure {}).endpoint = "/sinesp-cidadao/mobile/consultar-placa/" ∧
    (configure {}).serviceVersion = "v4" ∧
    (configure {}).secret = "g8LzUadkEHs7mbRqbX5l" ∧
    (configure {}).timeout = 0 ∧
    (configure {}).maximumRetry = 0 ∧
    (configure {}).proxy = ⟨none, none⟩ :=
  ⟨rfl, rfl, by decide, rfl, rfl, rfl, rfl, rfl, rfl, rfl⟩

/-! ## Claim C7 -/

/-- C7, counterexample: `validate "ABC1234\n\nX"` succeeds and returns
`"ABC1234\nX"`, a 9-character value that does not match
`^[A-Za-z]{3}[0-9]{4}$` as a whole string: the `m` flag of
`PLATE_FORMAT` lets the line `"ABC1234"` satisfy the test. -/
theorem validate_result_length_nine :
    validate "ABC1234\n\nX" = Except.ok "ABC1234\nX" ∧
    ("ABC1234\nX").length ≠ 7 ∧
    isPlateCore ("ABC1234\nX").data = false :=
  ⟨rfl, by decide, rfl⟩

/-- C7 (amended): every value returned successfully by `validate`
contains a line that matches `^[A-Za-z]{3}[0-9]{4}$`; whenever its length
is exactly 7 it matches the pattern as a whole (but the length may
exceed 7, so the `len == 7` invariant itself does not hold). -/
theorem validate_result_line_matches (s p : String)
    (h : validate s = Except.ok p) :
    testPlateFormat p.data = true ∧
    (p.length = 7 → isPlateCore p.data = true) := by
  simp only [validate] at h
  by_cases ht : testPlateFormat (removeFirstSpecial s.data) = true
  · rw [if_pos ht] at h
    have hp : p.data = removeFirstSpecial s.data := by
      cases h
      rfl
    rw [← hp] at ht
    refine ⟨ht, fun h7 => ?_⟩
    simp only [testPlateFormat, List.any_eq_true] at ht
    obtain ⟨x, hx, hxcore⟩ := ht
    have hx7 : x.length = 7 := isPlateCore_length hxcore
    have hlen : p.data.length = 7 := h7
    have hbound := length_mem_splitLines x hx
    have hfilter : (p.data.filter isLineTerminator).length = 0 := by omega
    have hnoterm : ∀ c ∈ p.data, isLineTerminator c = false := by
      intro c hc
      by_contra hterm
      have hcm : c ∈ p.data.filter isLineTerminator :=
        List.mem_filter.mpr ⟨hc, by simpa using hterm⟩
      rw [List.eq_nil_of_length_eq_zero hfilter] at hcm
      exact absurd hcm (List.not_mem_nil c)
    rw [splitLines_of_no_terminator hnoterm] at hx
    rw [List.mem_singleton.mp hx] at hxcore
    exact hxcore
  · rw [if_neg ht] at h
    exact absurd h (by simp)

/-- Witness for the amended C7 at the concrete input `"ABC-1234"`,
whose validated value `"ABC1234"` does satisfy both conjuncts. -/
theorem validate_result_line_matches_witness :
    testPlateFormat ("ABC1234").data = true ∧
    (("ABC1234").length = 7 → isPlateCore ("ABC1234").data = true) :=
  validate_result_line_matches "ABC-1234" "ABC1234" rfl

/-! ## Claims C3 and C4: the retry loop -/

theorem retryStep_delaySeq (i : Nat) : retryStep (delaySeq i) = delaySeq (i + 1) := by
  cases i with
  | zero => rfl
  | succ n =>
    have hne : 2000 * 2 ^ n ≠ 0 := by positivity
    simp only [retryStep, delaySeq]
    rw [if_neg hne]
    ring

theorem retry_ok_from {E A : Type} (t : Nat → Except E A) (maxR k : Nat) (a : A)
    (hk : k ≤ maxR) (hsucc : t k = Except.ok a)
    (hfail : ∀ i, i < k → ∃ e, t i = Except.error e) :
    ∀ n j, j + n = k →
      retry t maxR j (delaySeq j) =
        (Except.ok a, (List.range' j (n + 1)).map delaySeq) := by
  intro n
  induction n with
  | zero =>
    intro j hj
    have hj' : j = k := by omega
    subst hj'
    rw [retry, hsucc]
    simp [List.range']
  | succ m ih =>
    intro j hj
    obtain ⟨e, he⟩ := hfail j (by omega)
    rw [retry, he]
    have hnot : ¬ maxR ≤ j := by omega
    simp only [dif_neg hnot, retryStep_delaySeq j, ih (j + 1) (by omega)]
    simp [List.range']

/-- C3: when the transport fails on its first `k` attempts and succeeds
on attempt `k + 1` with `k ≤ maximumRetry`, `retry` (started as `search`
starts it, at attempt 0 and delay 0) succeeds with the transport's value,
sleeps exactly once per transport invocation — so the transport is
invoked exactly `k + 1` times — and the delays are
`0, 2000, 4000, 8000, ...`, doubling from the second retry on. -/
theorem retry_succeeds_with_doubling_delays {E A : Type} (t : Nat → Except E A)
    (maxR k : Nat) (a : A) (hk : k ≤ maxR) (hsucc : t k = Except.ok a)
    (hfail : ∀ i, i < k → ∃ e, t i = Except.error e) :
    retry t maxR 0 0 = (Except.ok a, (List.range (k + 1)).map delaySeq) ∧
    ((List.range (k + 1)).map delaySeq).length = k + 1 ∧
    delaySeq 0 = 0 ∧ delaySeq 1 = 2000 ∧
    ∀ i, 1 ≤ i → delaySeq (i + 1) = 2 * delaySeq i := by
  refine ⟨?_, by simp, rfl, rfl, ?_⟩
  · have h := retry_ok_from t maxR k a hk hsucc hfail k 0 (by omega)
    have h0 : delaySeq 0 = 0 := rfl
    rw [h0] at h
    rwa [List.range_eq_range']
  · intro i hi
    cases i with
    | zero => omega
    | succ n =>
      simp only [delaySeq]
      ring

/-- A transport that fails its first two attempts and succeeds on the
third; used only by the witness below. -/
def transportSucceedsAt2 : Nat → Except String String :=
  fun i => if i < 2 then Except.error "falha" else Except.ok "dados"

/-- Witness for C3 with `k = 2`, `maximumRetry = 2`: three invocations,
delays `[0, 2000, 4000]`. -/
theorem retry_succeeds_with_doubling_delays_witness :
    retry transportSucceedsAt2 2 0 0 =
      (Except.ok "dados", (List.range 3).map delaySeq) ∧
    ((List.range 3).map delaySeq).length = 3 ∧
    delaySeq 0 = 0 ∧ delaySeq 1 = 2000 ∧
    ∀ i, 1 ≤ i → delaySeq (i + 1) = 2 * delaySeq i :=
  retry_succeeds_with_doubling_delays transportSucceedsAt2 2 2 "dados"
    (by decide) rfl
    (fun i hi => ⟨"falha", by simp [transportSucceedsAt2, hi]⟩)

theorem retry_fail_from {E A : Type} (t : Nat → Except E A) (N : Nat)
    (err : Nat → E) (hfail : ∀ i, t i = Except.error (err i)) :
    ∀ n j, j + n = N →
      retry t N j (delaySeq j) =
        (Except.error (err N), (List.range' j (n + 1)).map delaySeq) := by
  intro n
  induction n with
  | zero =>
    intro j hj
    have hj' : j = N := by omega
    subst hj'
    rw [retry, hfail j]
    simp [List.range']
  | succ m ih =>
    intro j hj
    rw [retry, hfail j]
    have hnot : ¬ N ≤ j := by omega
    simp only [dif_neg hnot, retryStep_delaySeq j, ih (j + 1) (by omega)]
    simp [List.range']

/-- C4: with `maximumRetry = N` and a transport that fails every attempt,
`retry` (started as `search` starts it) performs exactly `N + 1` transport
invocations — one sleep per invocation — and propagates the error of the
final attempt (attempt index `N`) unchanged. -/
theorem retry_exhausts_and_propagates_last_error {E A : Type}
    (t : Nat → Except E A) (N : Nat) (err : Nat → E)
    (hfail : ∀ i, t i = Except.error (err i)) :
    retry t N 0 0 = (Except.error (err N), (List.range (N + 1)).map delaySeq) ∧
    ((List.range (N + 1)).map delaySeq).length = N + 1 := by
  refine ⟨?_, by simp⟩
  have h := retry_fail_from t N err hfail N 0 (by omega)
  have h0 : delaySeq 0 = 0 := rfl
  rw [h0] at h
  rwa [List.range_eq_range']

/-- Witness for C4 with `N = 1` and per-attempt errors equal to the
attempt index: two invocations, final error `1`. -/
theorem retry_exhausts_and_propagates_last_error_witness :
    retry (fun i => (Except.error i : Except Nat String)) 1 0 0 =
      (Except.error 1, (List.range 2).map delaySeq) ∧
    ((List.range 2).map delaySeq).length = 2 :=
  retry_exhausts_and_propagates_last_error
    (fun i => (Except.error i : Except Nat String)) 1 (fun i => i)
    (fun _ => rfl)

/-! ## Claim C5 -/

set_option maxRecDepth 100000

/-- C5: `generateToken` is exactly the lowercase-hex HMAC-SHA1 digest
whose key is `plate + "#" + androidVersion + "#" + secret` and whose
message is the plate, and it is deterministic: runs on equal inputs give
equal digests. -/
theorem generateToken_is_hmac_sha1_of_key (o : Options) (plate : String) :
    generateToken o plate =
      hmacSha1Hex (strBytes (plate ++ "#" ++ o.androidVersion ++ "#" ++ o.secret))
        (strBytes plate) ∧
    ∀ o' plate', o' = o → plate' = plate →
      generateToken o' plate' = generateToken o plate := by
  constructor
  · simp only [generateToken, String.append_assoc]
  · intro o' plate' h1 h2
    rw [h1, h2]

/-- Sanity vector for the HMAC-SHA1 stack: the token of `"ABC1234"`
under the default options (key
`ABC1234#8.1.0#g8LzUadkEHs7mbRqbX5l`, message `ABC1234`), checked by the
kernel against the digest computed by an independent HMAC-SHA1
implementation. -/
theorem generateToken_default_concrete :
    generateToken DEFAULT "ABC1234" =
      "e9d305dbcb11278e85b4aed3a9f6066c0faa6e2f" := by
  decide

/-- Witness for C5 at the default options and the plate `"ABC1234"`. -/
theorem generateToken_is_hmac_sha1_of_key_witness :
    generateToken DEFAULT "ABC1234" =
      hmacSha1Hex
        (strBytes ("ABC1234" ++ "#" ++ DEFAULT.androidVersion ++ "#" ++ DEFAULT.secret))
        (strBytes "ABC1234") ∧
    generateToken DEFAULT "ABC1234" = generateToken DEFAULT "ABC1234" :=
  ⟨(generateToken_is_hmac_sha1_of_key DEFAULT "ABC1234").1,
   (generateToken_is_hmac_sha1_of_key DEFAULT "ABC1234").2 DEFAULT "ABC1234" rfl rfl⟩

/-! ## Claim C6 -/

/-- C6: for every response envelope whose status code parses to the
number `c`, `normalize` fails with the service-provided status message
when `c ≠ 0` and returns the envelope — status fields and remaining
fields verbatim — when `c = 0`. -/
theorem normalize_status_code_dispatch (env : ReturnEnvelope) (c : Int)
    (h : parseIntBase10 env.codigoRetorno = some c) :
    (c ≠ 0 → normalize env = Except.error env.mensagemRetorno) ∧
    (c = 0 → normalize env = Except.ok env) := by
  constructor
  · intro hc
    have hne : ¬ parseIntBase10 env.codigoRetorno = some 0 := by
      rw [h]
      simp [hc]
    simp [normalize, hne]
  · intro hc
    subst hc
    simp [normalize, h]

/-- Witness for C6: status `"7"` with message `"Placa inválida"` fails
with that message; status `"0"` returns the record verbatim. -/
theorem normalize_status_code_dispatch_witness :
    normalize ⟨"7", "Placa inválida", []⟩ = Except.error "Placa inválida" ∧
    normalize ⟨"0", "", [("marca", "FIAT")]⟩ =
      Except.ok ⟨"0", "", [("marca", "FIAT")]⟩ :=
  ⟨(normalize_status_code_dispatch ⟨"7", "Placa inválida", []⟩ 7 (by decide)).1
      (by decide),
   (normalize_status_code_dispatch ⟨"0", "", [("marca", "FIAT")]⟩ 0 (by decide)).2
      rfl⟩

/-! ## Claim C8 -/

/-- C8: for every validated plate, client identity and token, reading the
structured request envelope back — the header token field `g` and the
body plate parameter `a` — recovers exactly the plate and token that were
encoded at lines 262-288. -/
theorem request_envelope_roundtrip (o : Options)
    (plateToUse ip token lon lat date : String) :
    (mkRequestEnvelope o plateToUse ip token lon lat date).body.getStatus.a =
      plateToUse ∧
    (mkRequestEnvelope o plateToUse ip token lon lat date).header.g = token :=
  ⟨rfl, rfl⟩

/-! ## Claim C9 -/

/-- C9: for every randomness value in `[0, 1)`, each of the four octets
of `generateIPAddress` is an integer in `[1, 255]`, and the `i`-th octet
is a function of the `i`-th randomness draw alone. -/
theorem generateIPAddress_octets_in_range (r1 r2 r3 r4 : ℚ)
    (h1 : 0 ≤ r1) (h1' : r1 < 1) (h2 : 0 ≤ r2) (h2' : r2 < 1)
    (h3 : 0 ≤ r3) (h3' : r3 < 1) (h4 : 0 ≤ r4) (h4' : r4 < 1) :
    generateIPAddress r1 r2 r3 r4 =
      (generateRandomOctet r1, generateRandomOctet r2,
       generateRandomOctet r3, generateRandomOctet r4) ∧
    (1 ≤ generateRandomOctet r1 ∧ generateRandomOctet r1 ≤ 255) ∧
    (1 ≤ generateRandomOctet r2 ∧ generateRandomOctet r2 ≤ 255) ∧
    (1 ≤ generateRandomOctet r3 ∧ generateRandomOctet r3 ≤ 255) ∧
    (1 ≤ generateRandomOctet r4 ∧ generateRandomOctet r4 ≤ 255) := by
  have key : ∀ r : ℚ, 0 ≤ r → r < 1 →
      1 ≤ generateRandomOctet r ∧ generateRandomOctet r ≤ 255 := by
    intro r hr hr'
    unfold generateRandomOctet
    constructor
    · have hfl : (0 : ℤ) ≤ Int.floor (r * 255) := by
        apply Int.floor_nonneg.mpr
        positivity
      omega
    · have hfl : Int.floor (r * 255) < 255 := by
        apply Int.floor_lt.mpr
        push_cast
        nlinarith
      omega
  exact ⟨rfl, key r1 h1 h1', key r2 h2 h2', key r3 h3 h3', key r4 h4 h4'⟩

/-- Witness for C9 at the draws `0, 1/2, 1/4, 254/255`. -/
theorem generateIPAddress_octets_in_range_witness :
    generateIPAddress 0 (1/2) (1/4) (254/255) =
      (generateRandomOctet 0, generateRandomOctet (1/2),
       generateRandomOctet (1/4), generateRandomOctet (254/255)) ∧
    (1 ≤ generateRandomOctet 0 ∧ generateRandomOctet 0 ≤ 255) ∧
    (1 ≤ generateRandomOctet (1/2) ∧ generateRandomOctet (1/2) ≤ 255) ∧
    (1 ≤ generateRandomOctet (1/4) ∧ generateRandomOctet (1/4) ≤ 255) ∧
    (1 ≤ generateRandomOctet (254/255) ∧ generateRandomOctet (254/255) ≤ 255) :=
  generateIPAddress_octets_in_range 0 (1/2) (1/4) (254/255)
    (by norm_num) (by norm_num) (by norm_num) (by norm_num)
    (by norm_num) (by norm_num) (by norm_num) (by norm_num)

/-! ## Claim C10 -/

/-- C10: `search` with no plate argument uses the default `''`, whose
validation fails, so it returns the ValidationError with zero transport
invocations: the failure happens before any network request. -/
theorem search_empty_plate_no_transport (o : Options)
    (t : Nat → Except String ReturnEnvelope) (ip lon lat date : String) :
    search o t ip lon lat date = (Except.error validationMessage, 0) ∧
    validate "" = Except.error validationMessage :=
  ⟨rfl, rfl⟩

end Sinesp
